import Mathlib

/-!
Verification development for the getting-started / workspace contribution layer
of the limix repository (file
src/packages/getting-started/src/browser/getting-started-widget.tsx).

The TypeScript source is shallowly embedded: pure computations become Lean
functions, asynchronous host calls become entries of explicit command traces,
and host collaborators (file service, dialog service, label provider) become
oracle fields of environment structures.  Names follow the source.
-/

namespace Limix

/-! ### Skeleton content module (static template strings from the source) -/

def anchorTomlContent : String :=
  "[programs.localnet]\n\x7bfolderName\x7d = \"replace_with_actual_program_id\"\n\n[provider]\ncluster = \"localnet\"\nwallet = \"~/.config/solana/id.json\"\n\n[scripts]\ntest = \"anchor test --skip-build\"\n\n[idl]\nformat = \"json\"\n"

def cargoTomlContent : String :=
  "[package]\nname = \"\x7bfolderName\x7d\"\nversion = \"0.1.0\"\nedition = \"2021\"\n\n[dependencies]\nanchor-lang = \"0.28.0\"\nsolana-program = \"1.11.0\"\n\n[lib]\ncrate-type = [\"cdylib\", \"lib\"]\n\n[features]\nno-entrypoint = []\n"

def programRsContent : String :=
  "use anchor_lang::prelude::*;\n\ndeclare_id!(\"replace_with_actual_program_id\");\n\n#[program]\npub mod \x7bfolderName\x7d \x7b\n    use super::*;\n\n    pub fn initialize(ctx: Context<Initialize>) -> Result<()> \x7b\n        let base_account = &mut ctx.accounts.base_account;\n        base_account.data = 0;\n        Ok(())\n    \x7d\n\n    pub fn increment(ctx: Context<Increment>) -> Result<()> \x7b\n        let base_account = &mut ctx.accounts.base_account;\n        base_account.data += 1;\n        Ok(())\n    \x7d\n\x7d\n\n#[derive(Accounts)]\npub struct Initialize<\x27info> \x7b\n    #[account(init, payer = user, space = 8 + 8)]\n    pub base_account: Account<\x27info, BaseAccount>,\n    #[account(mut)]\n    pub user: Signer<\x27info>,\n    pub system_program: Program<\x27info, System>,\n\x7d\n\n#[derive(Accounts)]\npub struct Increment<\x27info> \x7b\n    #[account(mut)]\n    pub base_account: Account<\x27info, BaseAccount>,\n\x7d\n\n#[account]\npub struct BaseAccount \x7b\n    pub data: u64;\n\x7d\n"

def testTsContent : String :=
  "import * as anchor from \"@coral-xyz/anchor\";\nimport \x7b Program \x7d from \"@coral-xyz/anchor\";\nimport \x7b \x7bfolderName\x7d \x7d from \"../target/types/\x7bfolderName\x7d\";\nimport \x7b assert \x7d from \"chai\";\n\ndescribe(\"\x7bfolderName\x7d program\", () => \x7b\n  const provider = anchor.AnchorProvider.env();\n  anchor.setProvider(provider);\n  const program = anchor.workspace.\x7bfolderName\x7d as Program<\x7bfolderName\x7d>;\n\n  let baseAccount = anchor.web3.Keypair.generate();\n\n  it(\"Initializes the account\", async () => \x7b\n    await program.methods.initialize().accounts(\x7b\n      baseAccount: baseAccount.publicKey,\n      user: provider.wallet.publicKey,\n      systemProgram: anchor.web3.SystemProgram.programId,\n    \x7d).signers([baseAccount]).rpc();\n\n    const account = await program.account.baseAccount.fetch(baseAccount.publicKey);\n    assert.equal(account.data.toNumber(), 0);\n  \x7d);\n\n  it(\"Increments the account data\", async () => \x7b\n    await program.methods.increment().accounts(\x7b\n      baseAccount: baseAccount.publicKey,\n    \x7d).rpc();\n\n    const account = await program.account.baseAccount.fetch(baseAccount.publicKey);\n    assert.equal(account.data.toNumber(), 1);\n  \x7d);\n\x7d);\n"

/-- The literal placeholder that the scaffolding code substitutes,
written in the source as the regular expression /\x7bfolderName\x7d/g. -/
def placeholder : String := "\x7bfolderName\x7d"

/-! ### A model of the JavaScript global string replacement

The source uses String.prototype.replace with a global regular expression made
of plain characters and a plain replacement string.  Per ECMA-262
(GetSubstitution), the replacement string interprets the two-character
sequences dollar-dollar, dollar-ampersand, dollar-backquote and
dollar-apostrophe specially; every other character is copied verbatim.  The
pattern has no capture groups, so dollar-digit sequences are literal. -/

def dollarChar : Char := Char.ofNat 36

def ampChar : Char := Char.ofNat 38

def backquoteChar : Char := Char.ofNat 96

def aposChar : Char := Char.ofNat 39

/-- GetSubstitution for a pattern with no capture groups: pre is the part of
the subject before the match, matched the matched text, suf the part after. -/
def expandSub (pre matched suf : List Char) : List Char → List Char
  | [] => []
  | [c] => [c]
  | c :: d :: rest =>
    if c = dollarChar then
      if d = dollarChar then dollarChar :: expandSub pre matched suf rest
      else if d = ampChar then matched ++ expandSub pre matched suf rest
      else if d = backquoteChar then pre ++ expandSub pre matched suf rest
      else if d = aposChar then suf ++ expandSub pre matched suf rest
      else c :: d :: expandSub pre matched suf rest
    else c :: expandSub pre matched suf (d :: rest)

/-- Split a character list at the first occurrence of the nonempty pattern p,
returning the part before the match and the part after it. -/
def splitFirst (p : List Char) : List Char → Option (List Char × List Char)
  | [] => none
  | c :: cs =>
    if p.isPrefixOf (c :: cs) then some ([], (c :: cs).drop p.length)
    else
      match splitFirst p cs with
      | none => none
      | some (b, a) => some (c :: b, a)

/-- Fuel-driven worker for the global JavaScript replace: pre accumulates the
portion of the original subject already consumed (needed by GetSubstitution),
s is the remaining subject. -/
def jsReplaceCore (p repl : List Char) : Nat → List Char → List Char → List Char
  | 0, _, s => s
  | fuel + 1, pre, s =>
    match splitFirst p s with
    | none => s
    | some (b, a) =>
      b ++ expandSub (pre ++ b) p a repl ++ jsReplaceCore p repl fuel (pre ++ b ++ p) a

/-- Model of the JavaScript call s.replace(/pat/g, repl) for a pattern of plain
characters and a plain replacement string. -/
def jsReplaceAll (s pat repl : String) : String :=
  if pat.data.isEmpty then s
  else String.mk (jsReplaceCore pat.data repl.data (s.data.length + 1) [] s.data)

/-- Worker for the literal replacement, with the same recursion layout as
jsReplaceCore. -/
def literalReplaceCore (p repl : List Char) : Nat → List Char → List Char
  | 0, s => s
  | fuel + 1, s =>
    match splitFirst p s with
    | none => s
    | some (b, a) => b ++ repl ++ literalReplaceCore p repl fuel a

/-- Modelled from the spec words for the skeleton content module: every
occurrence of the placeholder is replaced by the replacement text itself, with
no other modification of the template. -/
def literalReplaceAll (s pat repl : String) : String :=
  if pat.data.isEmpty then s
  else String.mk (literalReplaceCore pat.data repl.data (s.data.length + 1) s.data)

/-! ### The scaffolding command trace of GettingStartedWidget.doCreateContract -/

/-- The host commands that doCreateContract can issue, in the order awaited. -/
inductive FsCommand where
  | newContractFolder (targetDirectory folderName : String)
  | newContractFile (targetDirectory fileName content : String)
  | openSmartContract (folderPath : String)
deriving DecidableEq, Repr

def FsCommand.isFile : FsCommand → Bool
  | .newContractFile _ _ _ => true
  | _ => false

/-- The sequence of host commands awaited by doCreateContract, in source
order; blockchain is the widget state field read by the method. -/
def doCreateContract (blockchain targetDirectory folderName : String) : List FsCommand :=
  let projectFolderPath := targetDirectory ++ "/" ++ folderName
  let anchorToml := jsReplaceAll anchorTomlContent placeholder folderName
  let cargoToml := jsReplaceAll cargoTomlContent placeholder folderName
  let programRs := jsReplaceAll programRsContent placeholder folderName
  let testTs := jsReplaceAll testTsContent placeholder folderName
  FsCommand.newContractFolder targetDirectory folderName ::
    (if blockchain = "Solana" then
      [FsCommand.newContractFile projectFolderPath "Anchor.toml" anchorToml,
       FsCommand.newContractFile projectFolderPath "Cargo.toml" cargoToml,
       FsCommand.newContractFolder projectFolderPath "program",
       FsCommand.newContractFile (projectFolderPath ++ "/program") (folderName ++ ".rs") programRs,
       FsCommand.newContractFolder projectFolderPath "tests",
       FsCommand.newContractFile (projectFolderPath ++ "/tests") (folderName ++ ".ts") testTs,
       FsCommand.openSmartContract projectFolderPath]
    else [])

/-- The content handed to the first newContractFile command of a trace whose
file name is the given one. -/
def fileContent? (trace : List FsCommand) (name : String) : Option String :=
  trace.findSome? fun c =>
    match c with
    | .newContractFile _ f content => if f = name then some content else none
    | _ => none

/-! ### The project-configuration dialog (renderDialogBox) -/

/-- The disabling condition of the Create Project button: in the source,
isCreateButtonDisabled is the disjunction of the JavaScript falsiness of the
three collected string fields (a string is falsy exactly when empty). -/
def isCreateButtonDisabled (projectName blockchain language : String) : Bool :=
  projectName.isEmpty || blockchain.isEmpty || language.isEmpty

/-! ### The recently-opened-workspaces section of the welcome widget -/

/-- Host collaborators used by buildPaths and renderRecentWorkspaces: the
label provider, Path.tildify, the URI path base, and the home directory
field of the widget (a JavaScript string-or-undefined). -/
structure RecentEnv where
  home : Option String
  longName : String → String
  tildify : String → String → String
  uriBase : String → String

/-- The label computed for one workspace entry inside buildPaths. -/
def workspacePathLabel (env : RecentEnv) (workspace : String) : String :=
  let pathLabel := env.longName workspace
  match env.home with
  | some h => if h = "" then pathLabel else env.tildify pathLabel h
  | none => pathLabel

/-- GettingStartedWidget.buildPaths: one label per workspace, in order. -/
def buildPaths (env : RecentEnv) (workspaces : List String) : List String :=
  workspaces.map (workspacePathLabel env)

/-- The recently used workspaces limit of the widget. -/
def recentLimit : Nat := 5

/-- The observable outcome of rendering the recent-workspaces section: the
workspace entries (link text and path detail), whether the More link shows,
and whether the no-recent-folders message shows. -/
structure RecentRender where
  entries : List (String × String)
  showMore : Bool
  noRecent : Bool
deriving DecidableEq, Repr

/-- GettingStartedWidget.renderRecentWorkspaces: the content maps the first
recentLimit path labels to entries whose link text is the base of the
corresponding workspace URI; the content shows only when the item list is
nonempty, the More link exactly when the label list is longer than the
limit. -/
def renderRecentWorkspaces (env : RecentEnv) (recentWorkspaces : List String) :
    RecentRender :=
  let items := recentWorkspaces
  let paths := buildPaths env items
  let content := ((paths.take recentLimit).zip items).map
    fun p => (env.uriBase p.2, p.1)
  { entries := if 0 < items.length then content else []
    showMore := decide (recentLimit < paths.length)
    noRecent := decide (items.length = 0) }

/-! ### Multi-root workspace synthesis -/

/-- First-occurrence deduplication, the behaviour of the JavaScript
Array.from(new Set(...)) on the list of root paths: a Set iterates in
insertion order and insertion keeps the first occurrence. -/
def dedupFirst {α : Type} [DecidableEq α] : List α → List α
  | [] => []
  | x :: xs => x :: dedupFirst (xs.filter fun y => y ≠ x)
termination_by l => l.length
decreasing_by
  exact Nat.lt_succ_of_le (List.length_filter_le _ _)

def backslashChar : Char := Char.ofNat 92

/-- One lowercase hexadecimal digit, as used by the JSON unicode escape. -/
def hexLowerDigit (n : Nat) : Char :=
  if n < 10 then Char.ofNat (48 + n) else Char.ofNat (87 + n)

/-- The escape of one character inside a JSON string, per ECMA-262
QuoteJSONString as used by JSON.stringify. -/
def jsonEscapeChar (c : Char) : List Char :=
  let n := c.toNat
  if n = 34 then [backslashChar, Char.ofNat 34]
  else if n = 92 then [backslashChar, backslashChar]
  else if n = 8 then [backslashChar, Char.ofNat 98]
  else if n = 9 then [backslashChar, Char.ofNat 116]
  else if n = 10 then [backslashChar, Char.ofNat 110]
  else if n = 12 then [backslashChar, Char.ofNat 102]
  else if n = 13 then [backslashChar, Char.ofNat 114]
  else if n < 32 then
    [backslashChar, Char.ofNat 117, Char.ofNat 48, Char.ofNat 48,
     hexLowerDigit (n / 16), hexLowerDigit (n % 16)]
  else [c]

/-- A JSON string literal for s, per JSON.stringify. -/
def jsonQuote (s : String) : String :=
  String.mk (Char.ofNat 34 :: (s.data.map jsonEscapeChar).flatten ++ [Char.ofNat 34])

/-- Model of JSON.stringify applied to an object with the single key folders
holding a list of single-key path objects, with indent argument 4. -/
def stringifyFolders (paths : List String) : String :=
  match paths with
  | [] => "\x7b\n    \"folders\": []\n\x7d"
  | _ =>
    "\x7b\n    \"folders\": [\n"
      ++ String.intercalate ",\n" (paths.map fun p =>
           "        \x7b\n            \"path\": " ++ jsonQuote p ++ "\n        \x7d")
      ++ "\n    ]\n\x7d"

/-- A createFile request handed to the file service. -/
structure CreateFileCall where
  uri : String
  content : String
  overwrite : Bool
deriving DecidableEq, Repr

/-- A resolved file stat as the workspace contribution consumes it: the
resource URI, its path component, and the directory flag. -/
structure FileStat where
  resource : String
  resourcePath : String
  isDirectory : Bool
deriving DecidableEq, Repr

/-- WorkspaceFrontendContribution.createMultiRootWorkspace: deduplicate the
root paths in first-occurrence order, serialize them as the folders array of
a JSON workspace file with 4-space indentation, and create the untitled
workspace file with overwrite enabled; the returned URI is the resource of
the created file. -/
def createMultiRootWorkspace (untitledWorkspace : String) (roots : List FileStat) :
    CreateFileCall × String :=
  let folders := dedupFirst (roots.map fun stat => stat.resourcePath)
  ({ uri := untitledWorkspace
     content := stringifyFolders folders
     overwrite := true },
   untitledWorkspace)

/-! ### WorkspaceFrontendContribution.saveWorkspaceAs -/

/-- A URI chosen in the save dialog, as its parent URI plus display name. -/
structure SaveSelection where
  parent : String
  displayName : String
deriving DecidableEq, Repr

/-- Host collaborators of saveWorkspaceAs: the workspace file extensions and
default extension index, the file service existence check, the overwrite
confirmation dialog, and whether workspaceService.save succeeds on a URI. -/
structure SaveEnv where
  extensions : List String
  defaultFileTypeIndex : Nat
  fileExists : String → Bool
  confirmOverwrite : String → Bool
  saveOk : String → Bool

/-- The URI actually used after the extension fixup: when the display name
ends with no workspace file extension, the default extension is appended by
re-resolving against the parent. -/
def resolveSelected (env : SaveEnv) (sel : SaveSelection) : String :=
  if env.extensions.any (fun ext => sel.displayName.endsWith ext) then
    sel.parent ++ "/" ++ sel.displayName
  else
    sel.parent ++ "/" ++
      (sel.displayName ++ env.extensions.getD env.defaultFileTypeIndex "undefined")

/-- The do-while dialog loop of saveWorkspaceAs, driven by the list of dialog
answers (none is a cancelled dialog); it returns the selected URI with which
the loop exits, or none when the dialog was cancelled. -/
def saveLoop (env : SaveEnv) : List (Option SaveSelection) → Option String
  | [] => none
  | none :: _ => none
  | some sel :: rest =>
    let selected := resolveSelected env sel
    if env.fileExists selected then
      if env.confirmOverwrite selected then some selected
      else saveLoop env rest
    else some selected

/-- The observable outcome of saveWorkspaceAs: the boolean it resolves to and
whether the unable-to-save error message was shown. -/
structure SaveOutcome where
  result : Bool
  errorShown : Bool
deriving DecidableEq, Repr

/-- WorkspaceFrontendContribution.saveWorkspaceAs: loop the save dialog, then
try workspaceService.save on the selected URI; a save failure shows an error
message and the method resolves to false. -/
def saveWorkspaceAs (env : SaveEnv) (dialogs : List (Option SaveSelection)) :
    SaveOutcome :=
  match saveLoop env dialogs with
  | none => { result := false, errorShown := false }
  | some selected =>
    if env.saveOk selected then { result := true, errorShown := false }
    else { result := false, errorShown := true }

/-! ### WorkspaceFrontendContribution.getOpenableWorkspaceUri and doOpenFolder -/

/-- The MaybeArray type of the host framework. -/
inductive MaybeArray (α : Type) where
  | single (value : α)
  | arr (values : List α)
deriving DecidableEq, Repr

/-- Host collaborators of the open-folder flow: fileService.resolve (none
models an entry the optional-chain directory check rejects) and the untitled
workspace URI handed out by the workspace service. -/
structure OpenEnv where
  resolve : String → Option FileStat
  untitledWorkspace : String

/-- WorkspaceFrontendContribution.getOpenableWorkspaceUri: a non-array is
returned unchanged; an array of fewer than two entries yields its first
entry; otherwise the entries are resolved, directories kept, a unique
directory is returned directly, and any other outcome synthesizes a
multi-root workspace file. -/
def getOpenableWorkspaceUri (env : OpenEnv) : MaybeArray String → Option String
  | .single u => some u
  | .arr uris =>
    if uris.length < 2 then uris.head?
    else
      let foldersToOpen := uris.filterMap fun u =>
        match env.resolve u with
        | some stat => if stat.isDirectory then some stat else none
        | none => none
      if foldersToOpen.length = 1 then
        some (foldersToOpen.headD { resource := "", resourcePath := "", isDirectory := false }).resource
      else
        some (createMultiRootWorkspace env.untitledWorkspace foldersToOpen).2

/-- The observable outcome of doOpenFolder: what the method resolves to and
the URI passed to workspaceService.open when the open happens. -/
structure OpenFolderResult where
  returned : Option String
  opened : Option String
deriving DecidableEq, Repr

/-- WorkspaceFrontendContribution.doOpenFolder, driven by the open-dialog
answer and the current workspace resource URI. -/
def doOpenFolder (env : OpenEnv) (currentWorkspace : Option String)
    (targetFolders : Option (MaybeArray String)) : OpenFolderResult :=
  match targetFolders with
  | none => { returned := none, opened := none }
  | some tf =>
    match getOpenableWorkspaceUri env tf with
    | none => { returned := none, opened := none }
    | some openableUri =>
      match currentWorkspace with
      | none => { returned := some openableUri, opened := some openableUri }
      | some w =>
        if w = openableUri then { returned := none, opened := none }
        else { returned := some openableUri, opened := some openableUri }

/-! ### The NEW_CONTRACT_FOLDER and NEW_CONTRACT_FILE command handlers -/

def backslashToSlash (s : String) : String :=
  String.mk (s.data.map fun c => if c = backslashChar then Char.ofNat 47 else c)

/-- The characters encodeURIComponent leaves unescaped: letters, digits and
hyphen underscore dot exclamation tilde asterisk apostrophe parentheses. -/
def isUnreservedURIChar (c : Char) : Bool :=
  let n := c.toNat
  (65 ≤ n && n ≤ 90) || (97 ≤ n && n ≤ 122) || (48 ≤ n && n ≤ 57) ||
    n == 45 || n == 95 || n == 46 || n == 33 || n == 126 ||
    n == 42 || n == 39 || n == 40 || n == 41

def hexUpperDigit (n : Nat) : Char :=
  if n < 10 then Char.ofNat (48 + n) else Char.ofNat (55 + n)

/-- The UTF-8 bytes of one scalar value. -/
def utf8Bytes (c : Char) : List Nat :=
  let n := c.toNat
  if n < 128 then [n]
  else if n < 2048 then [192 + n / 64, 128 + n % 64]
  else if n < 65536 then [224 + n / 4096, 128 + (n / 64) % 64, 128 + n % 64]
  else [240 + n / 262144, 128 + (n / 4096) % 64, 128 + (n / 64) % 64, 128 + n % 64]

def percentByte (b : Nat) : List Char :=
  [Char.ofNat 37, hexUpperDigit (b / 16), hexUpperDigit (b % 16)]

/-- Model of the JavaScript encodeURIComponent. -/
def encodeURIComponent (s : String) : String :=
  String.mk ((s.data.map fun c =>
    if isUnreservedURIChar c then [c]
    else ((utf8Bytes c).map percentByte).flatten).flatten)

/-- The parent URI both contract command handlers build from a truthy
targetDirectory argument. -/
def contractParentUri (targetDirectory : String) : String :=
  "file:///" ++ encodeURIComponent (backslashToSlash targetDirectory)

/-- Host collaborators of the contract handlers: getDirectory resolves a URI
to the resource of the directory stat (undefined when none is found), and the
two failure oracles tell which file service creations throw. -/
structure ContractFsEnv where
  getDirectory : String → Option String
  createFolderFails : String → Bool
  createFileFails : String → Bool

/-- What a contract handler run ends in: the creation succeeded, the parent
lookup failed and a warning was printed, or an error was caught and logged. -/
inductive HandlerOutcome where
  | created (uri : String)
  | createdFile (uri content : String)
  | warnedNoParent
  | errorLogged
deriving DecidableEq, Repr

/-- The try-block of the NEW_CONTRACT_FOLDER handler: an error of the file
service folder creation escapes as an exception. -/
def newContractFolderBody (env : ContractFsEnv) (targetDirectory folderName : String)
    (uri : Option String) : Except Unit HandlerOutcome :=
  let parentUri := if targetDirectory ≠ "" then some (contractParentUri targetDirectory) else uri
  match parentUri.bind env.getDirectory with
  | some parentResource =>
    let folderUri := parentResource ++ "/" ++ (if folderName = "" then "Untitled" else folderName)
    if env.createFolderFails folderUri then Except.error ()
    else Except.ok (HandlerOutcome.created folderUri)
  | none => Except.ok HandlerOutcome.warnedNoParent

/-- The NEW_CONTRACT_FOLDER handler: the try-block wrapped in the
catch-and-log. -/
def newContractFolderExecute (env : ContractFsEnv) (targetDirectory folderName : String)
    (uri : Option String) : HandlerOutcome :=
  match newContractFolderBody env targetDirectory folderName uri with
  | Except.ok o => o
  | Except.error _ => HandlerOutcome.errorLogged

/-- The try-block of the NEW_CONTRACT_FILE handler. -/
def newContractFileBody (env : ContractFsEnv) (targetDirectory fileName content : String)
    (uri : Option String) : Except Unit HandlerOutcome :=
  let parentUri := if targetDirectory ≠ "" then some (contractParentUri targetDirectory) else uri
  match parentUri.bind env.getDirectory with
  | some parentResource =>
    let fileUri := parentResource ++ "/" ++ fileName
    if env.createFileFails fileUri then Except.error ()
    else Except.ok (HandlerOutcome.createdFile fileUri content)
  | none => Except.ok HandlerOutcome.warnedNoParent

/-- The NEW_CONTRACT_FILE handler: the try-block wrapped in the
catch-and-log. -/
def newContractFileExecute (env : ContractFsEnv) (targetDirectory fileName content : String)
    (uri : Option String) : HandlerOutcome :=
  match newContractFileBody env targetDirectory fileName content uri with
  | Except.ok o => o
  | Except.error _ => HandlerOutcome.errorLogged

/-- The try-block of doCreateContract: awaited commands run in order until
one throws; the error value carries the commands already performed, which the
enclosing catch cannot undo. -/
def runExcept (fails : FsCommand → Bool) :
    List FsCommand → Except (List FsCommand) (List FsCommand)
  | [] => Except.ok []
  | c :: rest =>
    if fails c then Except.error []
    else
      match runExcept fails rest with
      | Except.ok p => Except.ok (c :: p)
      | Except.error p => Except.error (c :: p)

/-- The catch-and-log of doCreateContract around its try-block: the performed
commands are kept either way and the flag records whether the error branch
logged. -/
def runCatching (fails : FsCommand → Bool) (trace : List FsCommand) :
    List FsCommand × Bool :=
  match runExcept fails trace with
  | Except.ok p => (p, false)
  | Except.error p => (p, true)

/-! ### Concrete host environments used to evaluate the theorems -/

def saveEnvTest : SaveEnv :=
  { extensions := [".theia-workspace"]
    defaultFileTypeIndex := 0
    fileExists := fun _ => true
    confirmOverwrite := fun _ => false
    saveOk := fun _ => true }

def selTest : SaveSelection := { parent := "file:///home", displayName := "ws" }

def openEnvTest : OpenEnv :=
  { resolve := fun u =>
      if u = "file:///d1" then
        some { resource := "file:///d1", resourcePath := "/d1", isDirectory := true }
      else
        some { resource := u, resourcePath := u, isDirectory := false }
    untitledWorkspace := "file:///tmp/Untitled.theia-workspace" }

def contractEnvFail : ContractFsEnv :=
  { getDirectory := fun _ => some "file:///root"
    createFolderFails := fun _ => true
    createFileFails := fun _ => true }

def contractEnvOk : ContractFsEnv :=
  { getDirectory := fun _ => some "file:///root"
    createFolderFails := fun _ => false
    createFileFails := fun _ => false }

/-! ### When the replacement text has no dollar sign, the JavaScript replace
agrees with the literal replacement -/

theorem expandSub_of_not_dollar (pre m suf : List Char) :
    ∀ repl : List Char, dollarChar ∉ repl → expandSub pre m suf repl = repl
  | [], _ => rfl
  | [_], _ => rfl
  | c :: d :: rest, h => by
    have hc : c ≠ dollarChar := fun hc => h (hc ▸ List.mem_cons_self c (d :: rest))
    have hrest : dollarChar ∉ d :: rest := fun hm => h (List.mem_cons_of_mem c hm)
    have ih := expandSub_of_not_dollar pre m suf (d :: rest) hrest
    simp only [expandSub, if_neg hc, ih]

theorem jsReplaceCore_eq_literal (p repl : List Char) (h : dollarChar ∉ repl) :
    ∀ fuel (pre s : List Char),
      jsReplaceCore p repl fuel pre s = literalReplaceCore p repl fuel s
  | 0, _, _ => rfl
  | fuel + 1, pre, s => by
    rw [jsReplaceCore, literalReplaceCore]
    cases hs : splitFirst p s with
    | none => rfl
    | some ba =>
      obtain ⟨b, a⟩ := ba
      simp only [expandSub_of_not_dollar _ _ _ repl h,
        jsReplaceCore_eq_literal p repl h fuel (pre ++ b ++ p) a]

theorem jsReplaceAll_eq_literal (s pat repl : String) (h : dollarChar ∉ repl.data) :
    jsReplaceAll s pat repl = literalReplaceAll s pat repl := by
  unfold jsReplaceAll literalReplaceAll
  cases hp : pat.data.isEmpty with
  | true => simp [hp]
  | false => simp [hp, jsReplaceCore_eq_literal pat.data repl.data h]

theorem take_map_zip {α β γ : Type} (g : α → β) (f : α → γ) :
    ∀ (l : List α) (k : Nat),
      (((l.map g).take k).zip l).map (fun p => (f p.2, p.1))
        = (l.take k).map fun w => (f w, g w)
  | [], _ => by simp
  | _ :: _, 0 => by simp
  | x :: xs, k + 1 => by
    simp [take_map_zip g f xs k]

theorem mem_dedupFirst {α : Type} [DecidableEq α] :
    ∀ (l : List α) (a : α), a ∈ dedupFirst l ↔ a ∈ l
  | [], _ => by rw [dedupFirst]
  | x :: xs, a => by
    rw [dedupFirst, List.mem_cons, mem_dedupFirst (xs.filter fun y => y ≠ x) a]
    by_cases hax : a = x
    · simp [hax]
    · simp [hax, List.mem_filter]
termination_by l => l.length
decreasing_by
  exact Nat.lt_succ_of_le (List.length_filter_le _ _)

theorem dedupFirst_nodup {α : Type} [DecidableEq α] :
    ∀ l : List α, (dedupFirst l).Nodup
  | [] => by rw [dedupFirst]; exact List.nodup_nil
  | x :: xs => by
    rw [dedupFirst]
    refine List.nodup_cons.mpr ⟨fun hx => ?_, dedupFirst_nodup _⟩
    have hmem := (mem_dedupFirst _ x).mp hx
    simp [List.mem_filter] at hmem
termination_by l => l.length
decreasing_by
  exact Nat.lt_succ_of_le (List.length_filter_le _ _)

theorem dedupFirst_sublist {α : Type} [DecidableEq α] :
    ∀ l : List α, (dedupFirst l).Sublist l
  | [] => by rw [dedupFirst]
  | x :: xs => by
    rw [dedupFirst]
    exact List.Sublist.cons₂ x
      ((dedupFirst_sublist _).trans (List.filter_sublist xs))
termination_by l => l.length
decreasing_by
  exact Nat.lt_succ_of_le (List.length_filter_le _ _)

theorem indexOf_lt_of_filter {α : Type} [DecidableEq α] (p : α → Bool) :
    ∀ (l : List α) (a b : α), a ∈ l.filter p → b ∈ l.filter p →
      (l.filter p).indexOf a < (l.filter p).indexOf b →
      l.indexOf a < l.indexOf b
  | [], a, b => by simp
  | c :: rest, a, b => by
    intro ha hb hlt
    cases hpc : p c with
    | false =>
      rw [List.filter_cons, if_neg (by simp [hpc])] at ha hb hlt
      have hac : c ≠ a := fun h =>
        by simp [← h, (List.mem_filter.mp ha).2, hpc] at *
      have hbc : c ≠ b := fun h =>
        by simp [← h, (List.mem_filter.mp hb).2, hpc] at *
      rw [List.indexOf_cons_ne _ hac, List.indexOf_cons_ne _ hbc]
      exact Nat.succ_lt_succ (indexOf_lt_of_filter p rest a b ha hb hlt)
    | true =>
      rw [List.filter_cons, if_pos (by simp [hpc])] at ha hb hlt
      by_cases hac : a = c
      · subst hac
        rw [List.indexOf_cons_self] at hlt ⊢
        have hbc : a ≠ b := by
          intro h
          rw [← h, List.indexOf_cons_self] at hlt
          exact Nat.not_lt_zero _ hlt
        rw [List.indexOf_cons_ne _ hbc]
        exact Nat.succ_pos _
      · by_cases hbc : b = c
        · subst hbc
          rw [List.indexOf_cons_self] at hlt
          exact absurd hlt (Nat.not_lt_zero _)
        · have hca : c ≠ a := fun h => hac h.symm
          have hcb : c ≠ b := fun h => hbc h.symm
          rw [List.indexOf_cons_ne _ hca, List.indexOf_cons_ne _ hcb] at hlt
          have ha2 : a ∈ rest.filter p := by
            rcases List.mem_cons.mp ha with h | h
            · exact absurd h hac
            · exact h
          have hb2 : b ∈ rest.filter p := by
            rcases List.mem_cons.mp hb with h | h
            · exact absurd h hbc
            · exact h
          rw [List.indexOf_cons_ne _ hca, List.indexOf_cons_ne _ hcb]
          exact Nat.succ_lt_succ (indexOf_lt_of_filter p rest a b ha2 hb2
            (Nat.lt_of_succ_lt_succ hlt))

/-- The elements of the deduplicated list appear in order of their first
occurrence in the original list. -/
theorem dedupFirst_pairwise {α : Type} [DecidableEq α] :
    ∀ l : List α, (dedupFirst l).Pairwise fun a b => l.indexOf a < l.indexOf b
  | [] => by rw [dedupFirst]; exact List.Pairwise.nil
  | x :: xs => by
    rw [dedupFirst]
    refine List.pairwise_cons.mpr ⟨fun b hb => ?_, ?_⟩
    · have hbf : b ∈ xs.filter (fun y => y ≠ x) := (mem_dedupFirst _ b).mp hb
      have hbx : x ≠ b := by
        have := (List.mem_filter.mp hbf).2
        simp at this
        exact fun h => this h.symm
      rw [List.indexOf_cons_self, List.indexOf_cons_ne _ hbx]
      exact Nat.succ_pos _
    · refine List.Pairwise.imp_of_mem ?_
        (dedupFirst_pairwise (xs.filter fun y => y ≠ x))
      intro a b ha hb hlt
      have haf := (mem_dedupFirst _ a).mp ha
      have hbf := (mem_dedupFirst _ b).mp hb
      have hax : x ≠ a := by
        have := (List.mem_filter.mp haf).2
        simp at this
        exact fun h => this h.symm
      have hbx : x ≠ b := by
        have := (List.mem_filter.mp hbf).2
        simp at this
        exact fun h => this h.symm
      rw [List.indexOf_cons_ne _ hax, List.indexOf_cons_ne _ hbx]
      exact Nat.succ_lt_succ (indexOf_lt_of_filter _ xs a b haf hbf hlt)
termination_by l => l.length
decreasing_by
  exact Nat.lt_succ_of_le (List.length_filter_le _ _)

/-! ### Claims C1, C3, C4 -/

/-- C1 counterexample: with the form completed for the Ethereum blockchain
(project name app, language Solidity selected in state), triggering Create
Project issues only the single top-level folder-creation command: no template
file is ever created, so no project skeleton is scaffolded for Ethereum. -/
theorem ethereum_scaffold_missing :
    doCreateContract "Ethereum" "C:/x" "app"
        = [FsCommand.newContractFolder "C:/x" "app"]
      ∧ (doCreateContract "Ethereum" "C:/x" "app").any FsCommand.isFile = false := by
  constructor <;> rfl

/-- C1 (amended): for every target directory and project name, the command
trace of doCreateContract contains a file-creation command (the template
files of the skeleton) exactly when the selected blockchain is Solana; for
any other blockchain value, Ethereum included, only the top-level project
folder command is issued. -/
theorem scaffold_iff_solana (blockchain d n : String) :
    ((doCreateContract blockchain d n).any FsCommand.isFile = true
        ↔ blockchain = "Solana")
      ∧ (blockchain ≠ "Solana" →
          doCreateContract blockchain d n = [FsCommand.newContractFolder d n]) := by
  by_cases hb : blockchain = "Solana" <;>
    simp [doCreateContract, hb, FsCommand.isFile]

/-- C1 amended witness at a concrete input: for Solana a template file is
created, while for Ethereum the trace is the bare folder command. -/
theorem scaffold_iff_solana_witness :
    ((doCreateContract "Ethereum" "C:/y" "tok").any FsCommand.isFile = true
        ↔ ("Ethereum" : String) = "Solana")
      ∧ (("Ethereum" : String) ≠ "Solana" →
          doCreateContract "Ethereum" "C:/y" "tok"
            = [FsCommand.newContractFolder "C:/y" "tok"]) :=
  scaffold_iff_solana "Ethereum" "C:/y" "tok"

/-- C3: for the Solana blockchain, doCreateContract awaits exactly this
sequence of host commands in this order: create folder n under d, create
Anchor.toml and Cargo.toml in d/n, create folder program in d/n, create n.rs
in d/n/program, create folder tests in d/n, create n.ts in d/n/tests, then
open d/n as the workspace — and no other file-system command. -/
theorem doCreateContract_solana_trace (d n : String) :
    doCreateContract "Solana" d n =
      [FsCommand.newContractFolder d n,
       FsCommand.newContractFile (d ++ "/" ++ n) "Anchor.toml"
         (jsReplaceAll anchorTomlContent placeholder n),
       FsCommand.newContractFile (d ++ "/" ++ n) "Cargo.toml"
         (jsReplaceAll cargoTomlContent placeholder n),
       FsCommand.newContractFolder (d ++ "/" ++ n) "program",
       FsCommand.newContractFile (d ++ "/" ++ n ++ "/program") (n ++ ".rs")
         (jsReplaceAll programRsContent placeholder n),
       FsCommand.newContractFolder (d ++ "/" ++ n) "tests",
       FsCommand.newContractFile (d ++ "/" ++ n ++ "/tests") (n ++ ".ts")
         (jsReplaceAll testTsContent placeholder n),
       FsCommand.openSmartContract (d ++ "/" ++ n)] := rfl

set_option maxRecDepth 10000 in
/-- C4 counterexample: for the project name consisting of the two characters
dollar and ampersand, the content passed for Anchor.toml differs from the
template with the placeholder literally replaced by that name, because the
JavaScript replacement string interprets the dollar-ampersand pattern. -/
theorem template_substitution_dollar_cex :
    fileContent? (doCreateContract "Solana" "C:/x" "$&") "Anchor.toml"
      ≠ some (literalReplaceAll anchorTomlContent placeholder "$&") := by decide

/-- C4 (amended): for every project name n that contains no dollar character,
the content passed for each generated file equals the corresponding static
template with every occurrence of the placeholder replaced by n and no other
modification; names containing dollar patterns are subject to JavaScript
replacement-string semantics instead. -/
theorem template_substitution_literal (d n : String)
    (h : dollarChar ∉ n.data) :
    doCreateContract "Solana" d n =
      [FsCommand.newContractFolder d n,
       FsCommand.newContractFile (d ++ "/" ++ n) "Anchor.toml"
         (literalReplaceAll anchorTomlContent placeholder n),
       FsCommand.newContractFile (d ++ "/" ++ n) "Cargo.toml"
         (literalReplaceAll cargoTomlContent placeholder n),
       FsCommand.newContractFolder (d ++ "/" ++ n) "program",
       FsCommand.newContractFile (d ++ "/" ++ n ++ "/program") (n ++ ".rs")
         (literalReplaceAll programRsContent placeholder n),
       FsCommand.newContractFolder (d ++ "/" ++ n) "tests",
       FsCommand.newContractFile (d ++ "/" ++ n ++ "/tests") (n ++ ".ts")
         (literalReplaceAll testTsContent placeholder n),
       FsCommand.openSmartContract (d ++ "/" ++ n)] := by
  have e1 := jsReplaceAll_eq_literal anchorTomlContent placeholder n h
  have e2 := jsReplaceAll_eq_literal cargoTomlContent placeholder n h
  have e3 := jsReplaceAll_eq_literal programRsContent placeholder n h
  have e4 := jsReplaceAll_eq_literal testTsContent placeholder n h
  simp [doCreateContract, e1, e2, e3, e4]

/-- C4 witness at the concrete dollar-free name app. -/
theorem template_substitution_literal_witness :
    dollarChar ∉ "app".data
      ∧ doCreateContract "Solana" "C:/x" "app" =
          [FsCommand.newContractFolder "C:/x" "app",
           FsCommand.newContractFile ("C:/x" ++ "/" ++ "app") "Anchor.toml"
             (literalReplaceAll anchorTomlContent placeholder "app"),
           FsCommand.newContractFile ("C:/x" ++ "/" ++ "app") "Cargo.toml"
             (literalReplaceAll cargoTomlContent placeholder "app"),
           FsCommand.newContractFolder ("C:/x" ++ "/" ++ "app") "program",
           FsCommand.newContractFile ("C:/x" ++ "/" ++ "app" ++ "/program") ("app" ++ ".rs")
             (literalReplaceAll programRsContent placeholder "app"),
           FsCommand.newContractFolder ("C:/x" ++ "/" ++ "app") "tests",
           FsCommand.newContractFile ("C:/x" ++ "/" ++ "app" ++ "/tests") ("app" ++ ".ts")
             (literalReplaceAll testTsContent placeholder "app"),
           FsCommand.openSmartContract ("C:/x" ++ "/" ++ "app")] :=
  ⟨by decide, template_substitution_literal "C:/x" "app" (by decide)⟩

/-! ### Claim C2 -/

/-- C2: the multi-root workspace synthesis writes the untitled workspace file
with overwrite enabled; its content is the 4-space-indented JSON document
whose folders array lists the root paths deduplicated in first-occurrence
order: every distinct root path occurs exactly once, the kept occurrences are
a sublist of the input (relative order preserved), and the entries are sorted
by the index of their first occurrence. -/
theorem createMultiRootWorkspace_spec (untitledWorkspace : String) (roots : List FileStat) :
    ((createMultiRootWorkspace untitledWorkspace roots).1.overwrite = true
        ∧ (createMultiRootWorkspace untitledWorkspace roots).1.uri = untitledWorkspace
        ∧ (createMultiRootWorkspace untitledWorkspace roots).1.content
            = stringifyFolders (dedupFirst (roots.map fun stat => stat.resourcePath)))
      ∧ (∀ p, (dedupFirst (roots.map fun stat => stat.resourcePath)).count p
            = if p ∈ roots.map (fun stat => stat.resourcePath) then 1 else 0)
      ∧ (dedupFirst (roots.map fun stat => stat.resourcePath)).Sublist
          (roots.map fun stat => stat.resourcePath)
      ∧ (dedupFirst (roots.map fun stat => stat.resourcePath)).Pairwise
          (fun a b => (roots.map fun stat => stat.resourcePath).indexOf a
            < (roots.map fun stat => stat.resourcePath).indexOf b) := by
  refine ⟨⟨rfl, rfl, rfl⟩, ?_, dedupFirst_sublist _, dedupFirst_pairwise _⟩
  intro p
  by_cases hp : p ∈ roots.map fun stat => stat.resourcePath
  · rw [if_pos hp]
    exact List.count_eq_one_of_mem (dedupFirst_nodup _) ((mem_dedupFirst _ _).mpr hp)
  · rw [if_neg hp]
    exact List.count_eq_zero_of_not_mem fun h => hp ((mem_dedupFirst _ _).mp h)

/-! ### Claim C5 -/

/-- C5: the save-as dialog loop re-raises for as long as the selected URI
exists and the overwrite is declined; the method resolves to true exactly
when the loop exits with a URI on which save succeeds, and the loop can only
exit with a URI that did not exist or whose overwrite was confirmed; a
cancelled dialog resolves to false with no error message, a save failure
resolves to false and shows the error message; and a display name that ends
with no workspace file extension gets the default extension appended before
the existence check. -/
theorem saveWorkspaceAs_spec (env : SaveEnv) :
    (∀ sel rest, env.fileExists (resolveSelected env sel) = true →
        env.confirmOverwrite (resolveSelected env sel) = false →
        saveLoop env (some sel :: rest) = saveLoop env rest)
      ∧ (∀ dialogs, (saveWorkspaceAs env dialogs).result = true ↔
          ∃ u, saveLoop env dialogs = some u ∧ env.saveOk u = true)
      ∧ (∀ dialogs u, saveLoop env dialogs = some u →
          env.fileExists u = false ∨ env.confirmOverwrite u = true)
      ∧ (∀ dialogs, saveLoop env dialogs = none →
          saveWorkspaceAs env dialogs = { result := false, errorShown := false })
      ∧ (∀ dialogs u, saveLoop env dialogs = some u → env.saveOk u = false →
          saveWorkspaceAs env dialogs = { result := false, errorShown := true })
      ∧ (∀ sel, (env.extensions.any fun ext => sel.displayName.endsWith ext) = false →
          resolveSelected env sel = sel.parent ++ "/" ++
            (sel.displayName ++ env.extensions.getD env.defaultFileTypeIndex "undefined")) := by
  refine ⟨?_, ?_, ?_, ?_, ?_, ?_⟩
  · intro sel rest h1 h2
    simp only [saveLoop, h1, h2]
    simp
  · intro dialogs
    cases hl : saveLoop env dialogs with
    | none => simp [saveWorkspaceAs, hl]
    | some u =>
      cases hs : env.saveOk u with
      | true => simp [saveWorkspaceAs, hl, hs]
      | false => simp [saveWorkspaceAs, hl, hs]
  · intro dialogs
    induction dialogs with
    | nil => intro u h; simp [saveLoop] at h
    | cons d rest ih =>
      intro u h
      cases d with
      | none => simp [saveLoop] at h
      | some sel =>
        simp only [saveLoop] at h
        by_cases he : env.fileExists (resolveSelected env sel) = true
        · rw [if_pos he] at h
          by_cases hc : env.confirmOverwrite (resolveSelected env sel) = true
          · rw [if_pos hc] at h
            cases h
            exact Or.inr hc
          · rw [if_neg hc] at h
            exact ih u h
        · rw [if_neg he] at h
          cases h
          exact Or.inl (Bool.not_eq_true _ ▸ he)
  · intro dialogs hl
    simp [saveWorkspaceAs, hl]
  · intro dialogs u hl hs
    simp [saveWorkspaceAs, hl, hs]
  · intro sel h
    simp [resolveSelected, h]

/-- C5 witness: with a host where every URI exists, overwrite is declined and
saves succeed, the loop on one declined selection falls through to the next
dialog answer; a cancelled dialog resolves to false without an error message;
and the extensionless display name ws gets the default extension appended. -/
theorem saveWorkspaceAs_spec_witness :
    saveLoop saveEnvTest [some selTest] = saveLoop saveEnvTest []
      ∧ saveWorkspaceAs saveEnvTest [none] = { result := false, errorShown := false }
      ∧ resolveSelected saveEnvTest selTest = "file:///home" ++ "/" ++
          ("ws" ++ saveEnvTest.extensions.getD saveEnvTest.defaultFileTypeIndex "undefined") :=
  ⟨(saveWorkspaceAs_spec saveEnvTest).1 selTest [] (by decide) (by decide),
   (saveWorkspaceAs_spec saveEnvTest).2.2.2.1 [none] (by decide),
   (saveWorkspaceAs_spec saveEnvTest).2.2.2.2.2 selTest (by decide)⟩

/-! ### Claim C6 -/

/-- C6: getOpenableWorkspaceUri returns a non-array input unchanged, the
first element of a short array (none when empty), the resource of the unique
directory among two or more resolved entries, and otherwise the synthesized
multi-root workspace URI; doOpenFolder opens the openable URI and resolves to
it exactly when it differs from the current workspace URI, and resolves to
undefined on a cancelled dialog or an equal workspace. -/
theorem getOpenableWorkspaceUri_spec (env : OpenEnv) :
    (∀ u, getOpenableWorkspaceUri env (MaybeArray.single u) = some u)
      ∧ getOpenableWorkspaceUri env (MaybeArray.arr []) = none
      ∧ (∀ u, getOpenableWorkspaceUri env (MaybeArray.arr [u]) = some u)
      ∧ (∀ uris f, 2 ≤ uris.length →
          (uris.filterMap fun u =>
            match env.resolve u with
            | some stat => if stat.isDirectory then some stat else none
            | none => none) = [f] →
          getOpenableWorkspaceUri env (MaybeArray.arr uris) = some f.resource)
      ∧ (∀ uris, 2 ≤ uris.length →
          (uris.filterMap fun u =>
            match env.resolve u with
            | some stat => if stat.isDirectory then some stat else none
            | none => none).length ≠ 1 →
          getOpenableWorkspaceUri env (MaybeArray.arr uris)
            = some env.untitledWorkspace)
      ∧ (∀ current, doOpenFolder env current none
          = { returned := none, opened := none })
      ∧ (∀ current tf u, getOpenableWorkspaceUri env tf = some u →
          current ≠ some u →
          doOpenFolder env current (some tf)
            = { returned := some u, opened := some u })
      ∧ (∀ tf u, getOpenableWorkspaceUri env tf = some u →
          doOpenFolder env (some u) (some tf)
            = { returned := none, opened := none }) := by
  refine ⟨fun u => rfl, rfl, fun u => rfl, ?_, ?_, fun current => rfl, ?_, ?_⟩
  · intro uris f hlen hf
    simp only [getOpenableWorkspaceUri]
    rw [if_neg (by omega), hf]
    simp
  · intro uris hlen hne
    simp only [getOpenableWorkspaceUri]
    rw [if_neg (by omega), if_neg hne]
    rfl
  · intro current tf u hu hne
    cases current with
    | none => simp [doOpenFolder, hu]
    | some w =>
      have hw : w ≠ u := fun h => hne (by rw [h])
      simp [doOpenFolder, hu, hw]
  · intro tf u hu
    simp [doOpenFolder, hu]

/-- C6 witness: with one resolvable directory and one file among two entries,
the array yields the directory resource; and opening it from a fresh window
returns it while opening it again from the same workspace returns
undefined. -/
theorem getOpenableWorkspaceUri_spec_witness :
    getOpenableWorkspaceUri openEnvTest (MaybeArray.arr ["file:///d1", "file:///f1"])
        = some "file:///d1"
      ∧ doOpenFolder openEnvTest (some "file:///other")
          (some (MaybeArray.arr ["file:///d1", "file:///f1"]))
          = { returned := some "file:///d1", opened := some "file:///d1" }
      ∧ doOpenFolder openEnvTest (some "file:///d1")
          (some (MaybeArray.arr ["file:///d1", "file:///f1"]))
          = { returned := none, opened := none } :=
  ⟨(getOpenableWorkspaceUri_spec openEnvTest).2.2.2.1
      ["file:///d1", "file:///f1"]
      { resource := "file:///d1", resourcePath := "/d1", isDirectory := true }
      (by decide) (by decide),
   (getOpenableWorkspaceUri_spec openEnvTest).2.2.2.2.2.2.1
      (some "file:///other") (MaybeArray.arr ["file:///d1", "file:///f1"])
      "file:///d1" (by decide) (by decide),
   (getOpenableWorkspaceUri_spec openEnvTest).2.2.2.2.2.2.2
      (MaybeArray.arr ["file:///d1", "file:///f1"])
      "file:///d1" (by decide)⟩

/-! ### Claim C7 -/

theorem takeWhile_of_all_true {α : Type} (p : α → Bool) :
    ∀ l : List α, (∀ c ∈ l, p c = true) → l.takeWhile p = l
  | [], _ => rfl
  | c :: rest, h => by
    rw [List.takeWhile_cons, if_pos (h c (List.mem_cons_self c rest)),
      takeWhile_of_all_true p rest fun x hx => h x (List.mem_cons_of_mem c hx)]

theorem runExcept_spec (fails : FsCommand → Bool) :
    ∀ l : List FsCommand,
      runExcept fails l =
        if l.any fails then Except.error (l.takeWhile fun c => !fails c)
        else Except.ok l
  | [] => by simp [runExcept]
  | c :: rest => by
    rw [runExcept, runExcept_spec fails rest]
    cases hf : fails c with
    | true => simp [hf]
    | false =>
      cases ha : rest.any fails with
      | true => simp [hf, ha]
      | false => simp [hf, ha]

theorem runCatching_spec (fails : FsCommand → Bool) (l : List FsCommand) :
    runCatching fails l = (l.takeWhile fun c => !fails c, l.any fails) := by
  rw [runCatching, runExcept_spec]
  cases ha : l.any fails with
  | true => rfl
  | false =>
    have : l.takeWhile (fun c => !fails c) = l := by
      refine takeWhile_of_all_true _ l fun c hc => ?_
      have := (List.any_eq_false).mp ha c hc
      simp [this]
    simp [this]

/-- C7: the contract handlers and doCreateContract never let an error escape.
An error of the folder or file handler try-block turns into the logged-error
outcome and a successful body passes its outcome through; the run of the
doCreateContract command list under any failure oracle always returns, keeps
exactly the commands before the first failing one (no rollback, no retry of
the partially created files and folders), and logs exactly when some command
fails. -/
theorem contract_handlers_catch_errors :
    (∀ env td fn uri, (newContractFolderBody env td fn uri).isOk = false →
        newContractFolderExecute env td fn uri = HandlerOutcome.errorLogged)
      ∧ (∀ env td fn uri o, newContractFolderBody env td fn uri = Except.ok o →
          newContractFolderExecute env td fn uri = o)
      ∧ (∀ env td f c uri, (newContractFileBody env td f c uri).isOk = false →
          newContractFileExecute env td f c uri = HandlerOutcome.errorLogged)
      ∧ (∀ env td f c uri o, newContractFileBody env td f c uri = Except.ok o →
          newContractFileExecute env td f c uri = o)
      ∧ (∀ b d n fails, runCatching fails (doCreateContract b d n)
          = ((doCreateContract b d n).takeWhile fun c => !fails c,
             (doCreateContract b d n).any fails))
      ∧ (∀ b d n fails,
          (runCatching fails (doCreateContract b d n)).1 <+: doCreateContract b d n) := by
  refine ⟨?_, ?_, ?_, ?_, ?_, ?_⟩
  · intro env td fn uri h
    rw [newContractFolderExecute]
    cases hb : newContractFolderBody env td fn uri with
    | ok o => rw [hb] at h; simp [Except.isOk, Except.toBool] at h
    | error e => rfl
  · intro env td fn uri o h
    rw [newContractFolderExecute, h]
  · intro env td f c uri h
    rw [newContractFileExecute]
    cases hb : newContractFileBody env td f c uri with
    | ok o => rw [hb] at h; simp [Except.isOk, Except.toBool] at h
    | error e => rfl
  · intro env td f c uri o h
    rw [newContractFileExecute, h]
  · intro b d n fails
    exact runCatching_spec fails (doCreateContract b d n)
  · intro b d n fails
    rw [runCatching_spec]
    exact List.takeWhile_prefix _

/-- C7 witness: a host on which every creation throws produces the
logged-error outcome instead of an exception, and a host on which nothing
throws passes the created outcomes through, for both handlers. -/
theorem contract_handlers_catch_errors_witness :
    newContractFolderExecute contractEnvFail "C:/x" "p" none = HandlerOutcome.errorLogged
      ∧ newContractFolderExecute contractEnvOk "C:/x" "p" none
          = HandlerOutcome.created ("file:///root" ++ "/" ++ "p")
      ∧ newContractFileExecute contractEnvFail "C:/x" "a.toml" "data" none
          = HandlerOutcome.errorLogged
      ∧ newContractFileExecute contractEnvOk "C:/x" "a.toml" "data" none
          = HandlerOutcome.createdFile ("file:///root" ++ "/" ++ "a.toml") "data" :=
  ⟨contract_handlers_catch_errors.1 contractEnvFail "C:/x" "p" none (by decide),
   contract_handlers_catch_errors.2.1 contractEnvOk "C:/x" "p" none
     (HandlerOutcome.created ("file:///root" ++ "/" ++ "p")) (by rfl),
   contract_handlers_catch_errors.2.2.1 contractEnvFail "C:/x" "a.toml" "data" none
     (by decide),
   contract_handlers_catch_errors.2.2.2.1 contractEnvOk "C:/x" "a.toml" "data" none
     (HandlerOutcome.createdFile ("file:///root" ++ "/" ++ "a.toml") "data") (by rfl)⟩

/-! ### Claim C8 -/

/-- C8: the Create Project button is disabled exactly when at least one of
the three collected fields is the empty string, and therefore enabled exactly
when all three are non-empty. -/
theorem createButtonDisabled_iff (projectName blockchain language : String) :
    (isCreateButtonDisabled projectName blockchain language = true ↔
        projectName = "" ∨ blockchain = "" ∨ language = "")
      ∧ (isCreateButtonDisabled projectName blockchain language = false ↔
        projectName ≠ "" ∧ blockchain ≠ "" ∧ language ≠ "") := by
  constructor
  · simp [isCreateButtonDisabled, String.isEmpty_iff, or_assoc]
  · simp [isCreateButtonDisabled, Bool.eq_false_iff, String.isEmpty_iff, and_assoc]

/-! ### Claim C9 -/

/-- C9: the recent-workspaces section renders exactly the first recentLimit
(five) workspaces in list order, each entry pairing the URI base with the
path label; the More link shows exactly when the list is longer than the
limit; and the no-recent-folders message shows exactly when the list is
empty. -/
theorem renderRecentWorkspaces_spec (env : RecentEnv) (items : List String) :
    (renderRecentWorkspaces env items).entries
        = (items.take recentLimit).map (fun w => (env.uriBase w, workspacePathLabel env w))
      ∧ (renderRecentWorkspaces env items).entries.length = min recentLimit items.length
      ∧ ((renderRecentWorkspaces env items).showMore = true ↔ recentLimit < items.length)
      ∧ ((renderRecentWorkspaces env items).noRecent = true ↔ items = []) := by
  refine ⟨?_, ?_, ?_, ?_⟩
  · cases items with
    | nil => simp [renderRecentWorkspaces]
    | cons x xs =>
      simp only [renderRecentWorkspaces, buildPaths]
      rw [if_pos (by simp)]
      exact take_map_zip (workspacePathLabel env) env.uriBase (x :: xs) recentLimit
  · cases items with
    | nil => simp [renderRecentWorkspaces]
    | cons x xs =>
      simp only [renderRecentWorkspaces, buildPaths]
      rw [if_pos (by simp),
        take_map_zip (workspacePathLabel env) env.uriBase (x :: xs) recentLimit]
      simp [List.length_take]
  · simp [renderRecentWorkspaces, buildPaths]
  · simp [renderRecentWorkspaces, List.length_eq_zero]

/-! ### Claim C10 -/

/-- C10: for a truthy targetDirectory both contract handlers resolve the
parent through the URI made of the scheme prefix and the percent-encoded
directory with backslashes first turned into slashes; and an empty or
missing folder name creates the folder named Untitled under the resolved
parent. -/
theorem newContractCommands_uri_spec :
    (∀ (env : ContractFsEnv) td fn uri, td ≠ "" →
        newContractFolderExecute env td fn uri =
          match env.getDirectory
            ("file:///" ++ encodeURIComponent (backslashToSlash td)) with
          | some parentResource =>
            if env.createFolderFails
                (parentResource ++ "/" ++ (if fn = "" then "Untitled" else fn))
            then HandlerOutcome.errorLogged
            else HandlerOutcome.created
              (parentResource ++ "/" ++ (if fn = "" then "Untitled" else fn))
          | none => HandlerOutcome.warnedNoParent)
      ∧ (∀ (env : ContractFsEnv) td f c uri, td ≠ "" →
          newContractFileExecute env td f c uri =
            match env.getDirectory
              ("file:///" ++ encodeURIComponent (backslashToSlash td)) with
            | some parentResource =>
              if env.createFileFails (parentResource ++ "/" ++ f)
              then HandlerOutcome.errorLogged
              else HandlerOutcome.createdFile (parentResource ++ "/" ++ f) c
            | none => HandlerOutcome.warnedNoParent)
      ∧ (∀ (env : ContractFsEnv) td uri parentResource, td ≠ "" →
          env.getDirectory (contractParentUri td) = some parentResource →
          env.createFolderFails (parentResource ++ "/" ++ "Untitled") = false →
          newContractFolderExecute env td "" uri
            = HandlerOutcome.created (parentResource ++ "/" ++ "Untitled")) := by
  have hfolder : ∀ (env : ContractFsEnv) td fn uri, td ≠ "" →
      newContractFolderExecute env td fn uri =
        match env.getDirectory
          ("file:///" ++ encodeURIComponent (backslashToSlash td)) with
        | some parentResource =>
          if env.createFolderFails
              (parentResource ++ "/" ++ (if fn = "" then "Untitled" else fn))
          then HandlerOutcome.errorLogged
          else HandlerOutcome.created
            (parentResource ++ "/" ++ (if fn = "" then "Untitled" else fn))
        | none => HandlerOutcome.warnedNoParent := by
    intro env td fn uri htd
    rw [newContractFolderExecute, newContractFolderBody]
    rw [if_pos htd]
    cases hg : env.getDirectory ("file:///" ++ encodeURIComponent (backslashToSlash td)) with
    | none => simp [contractParentUri, Option.bind, hg]
    | some parentResource =>
      simp only [contractParentUri, Option.some_bind, hg]
      cases hc : env.createFolderFails
          (parentResource ++ "/" ++ (if fn = "" then "Untitled" else fn)) with
      | true => simp [hc]
      | false => simp [hc]
  refine ⟨hfolder, ?_, ?_⟩
  · intro env td f c uri htd
    rw [newContractFileExecute, newContractFileBody]
    rw [if_pos htd]
    cases hg : env.getDirectory ("file:///" ++ encodeURIComponent (backslashToSlash td)) with
    | none => simp [contractParentUri, Option.bind, hg]
    | some parentResource =>
      simp only [contractParentUri, Option.some_bind, hg]
      cases hc : env.createFileFails (parentResource ++ "/" ++ f) with
      | true => simp [hc]
      | false => simp [hc]
  · intro env td uri parentResource htd hg hc
    rw [hfolder env td "" uri htd]
    rw [contractParentUri] at hg
    rw [hg]
    simp [hc]

/-- C10 witness: with the directory C backslash x, the parent URI resolves
through the encoded file URI and the empty folder name creates Untitled. -/
theorem newContractCommands_uri_spec_witness :
    newContractFolderExecute contractEnvOk "C:\\x" "" none
      = HandlerOutcome.created ("file:///root" ++ "/" ++ "Untitled") :=
  newContractCommands_uri_spec.2.2 contractEnvOk "C:\\x" none "file:///root"
    (by decide) (by decide) (by decide)

end Limix
